import Mathlib

/-!
Verification of the chat front end in `src/App.js` (a React component that
forwards user queries to a research-agent HTTP endpoint).

The development shallowly embeds the code:

* decoded JSON payloads are the inductive type `Json` (numeric literals are
  modelled as integers; floating-point formatting plays no role in any claim);
* the response-normalization block of `sendMessage` (lines 62-74) is the pure
  function `normalize`;
* the stateful component is `AppState`, and one complete run of `sendMessage`
  (from invocation to the settling of its `fetch`) is the function
  `sendMessage`, parameterized by the environment: the outcome of the network
  call (`FetchResult`) and the stream of `Date.now()` / `Math.random()` draws
  used to mint message ids.

JavaScript semantics captured: property access `v.k` throws a `TypeError`
exactly when `v` is `null`/`undefined`; on any other non-object it yields
`undefined`.  Inside the normalizer, `undefined` and `null` behave identically
at every use site (truthiness, `Array.isArray`, `===` against a string
literal, `??`), so both are modelled by `Json.null`.
-/

namespace ChatApp

/-- A decoded JSON value.  `num` carries integers: the claims under study never
depend on non-integral numeric formatting. -/
inductive Json where
  | null : Json
  | bool : Bool → Json
  | num : Int → Json
  | str : String → Json
  | arr : List Json → Json
  | obj : List (String × Json) → Json

/-- Last-occurrence lookup in an object's key-value list, matching the
duplicate-key behaviour of `JSON.parse` (later keys win). -/
def objGet : List (String × Json) → String → Option Json
  | [], _ => none
  | (k, v) :: rest, key =>
    match objGet rest key with
    | some w => some w
    | none => if k = key then some v else none

/-- Total JavaScript property access `v.k` for a non-null receiver: the field
value on objects that carry the key, `undefined` (modelled as `Json.null`)
otherwise.  Callers must handle the null receiver (which throws) themselves. -/
def getF : Json → String → Json
  | .obj kvs, k => (objGet kvs k).getD .null
  | _, _ => .null

/-- JavaScript truthiness of a decoded JSON value. -/
def truthy : Json → Bool
  | .null => false
  | .bool b => b
  | .num n => n != 0
  | .str s => s != ""
  | .arr _ => true
  | .obj _ => true

/-- `typeof v === "string"`. -/
def isString : Json → Bool
  | .str _ => true
  | _ => false

/-- The carried string of a string value (only applied under `isString`). -/
def asString : Json → String
  | .str s => s
  | _ => ""

def isNull : Json → Bool
  | .null => true
  | _ => false

/-- Strict equality `v === lit` against a string literal. -/
def jsEqStr : Json → String → Bool
  | .str s, t => s = t
  | _, _ => false

mutual

/-- JavaScript `String(v)` coercion for decoded JSON values: strings pass
through, numbers print in decimal, booleans as `true`/`false`, objects as
`[object Object]`, arrays join their elements with commas (null elements
print as the empty string, per `Array.prototype.toString`). -/
def jsToString : Json → String
  | .null => "null"
  | .bool b => cond b "true" "false"
  | .num n => toString n
  | .str s => s
  | .obj _ => "[object Object]"
  | .arr es => String.intercalate "," (jsToStringList es)

def jsToStringList : List Json → List String
  | [] => []
  | e :: rest =>
    (match e with
     | .null => ""
     | x => jsToString x) :: jsToStringList rest

end

def hexDigit (n : Nat) : String :=
  String.singleton (Char.ofNat (if n < 10 then 48 + n else 87 + n))

/-- Escaping applied by `JSON.stringify` inside string literals. -/
def escapeChar (c : Char) : String :=
  if c = '"' then "\\\""
  else if c = '\\' then "\\\\"
  else if c = '\n' then "\\n"
  else if c = '\r' then "\\r"
  else if c = '\t' then "\\t"
  else if c = '\x08' then "\\b"
  else if c = '\x0c' then "\\f"
  else if c.toNat < 32 then "\\u00" ++ hexDigit (c.toNat / 16) ++ hexDigit (c.toNat % 16)
  else String.singleton c

def escapeJsonString (s : String) : String :=
  String.join (s.toList.map escapeChar)

mutual

/-- `JSON.stringify` on decoded JSON values. -/
def jsonStringify : Json → String
  | .null => "null"
  | .bool b => cond b "true" "false"
  | .num n => toString n
  | .str s => "\"" ++ escapeJsonString s ++ "\""
  | .arr es => "[" ++ String.intercalate "," (stringifyList es) ++ "]"
  | .obj kvs => "\x7b" ++ String.intercalate "," (stringifyObj kvs) ++ "\x7d"

def stringifyList : List Json → List String
  | [] => []
  | e :: rest => jsonStringify e :: stringifyList rest

def stringifyObj : List (String × Json) → List String
  | [] => []
  | (k, v) :: rest =>
    ("\"" ++ escapeJsonString k ++ "\":" ++ jsonStringify v) :: stringifyObj rest

end

/-- A role-tagged message as produced by the normalizer, before an id is
attached by `addMessage`. -/
structure Chat where
  role : String
  content : String
deriving DecidableEq, Repr

/-- One entry of the `data.messages.forEach` loop (App.js lines 66-69):
`.error ()` models the `TypeError` thrown by `msg.role` when the entry is
null/undefined; otherwise the role is clamped to `user`/`system`/`assistant`
and the content is `String(msg.content ?? msg.text ?? "")`. -/
def entryToChat (msg : Json) : Except Unit Chat :=
  match msg with
  | .null => .error ()
  | _ =>
    let role :=
      if jsEqStr (getF msg "role") "user" then "user"
      else if jsEqStr (getF msg "role") "system" then "system"
      else "assistant"
    let c := getF msg "content"
    let t := getF msg "text"
    .ok ⟨role, jsToString (if !isNull c then c else if !isNull t then t else .str "")⟩

/-- The `forEach` over `data.messages`: chats appended before any throw, and
whether a throw interrupted the iteration. -/
def normalizeEntries : List Json → List Chat × Bool
  | [] => ([], false)
  | e :: rest =>
    match entryToChat e with
    | .error _ => ([], true)
    | .ok c =>
      let p := normalizeEntries rest
      (c :: p.1, p.2)

/-- The response-shape normalization block of `sendMessage` (App.js lines
62-74).  Returns the list of (role, content) pairs passed to `addMessage`, in
order, together with a flag recording whether a `TypeError` escaped the block
(property access on `null`: either `data` itself null at `data.reply`, or a
null entry of `data.messages` at `msg.role`). -/
def normalize (data : Json) : List Chat × Bool :=
  match data with
  | .null => ([], true)
  | _ =>
    let reply := getF data "reply"
    if truthy reply && isString reply then
      ([⟨"assistant", asString reply⟩], false)
    else
      match getF data "messages" with
      | .arr entries => normalizeEntries entries
      | _ =>
        if isString data then ([⟨"assistant", asString data⟩], false)
        else ([⟨"assistant", jsonStringify data⟩], false)

example : normalize (.obj [("reply", .str "Paris is the capital.")]) =
    ([⟨"assistant", "Paris is the capital."⟩], false) := by decide

example : normalize (.str "plain string") = ([⟨"assistant", "plain string"⟩], false) := by
  decide

example : normalize (.obj [("foo", .num 1)]) =
    ([⟨"assistant", "\x7b\"foo\":1\x7d"⟩], false) := by decide

example : normalize .null = ([], true) := by decide

example : normalize (.obj [("messages", .arr [])]) = ([], false) := by decide

example : normalize (.obj [("reply", .str "")]) =
    ([⟨"assistant", "\x7b\"reply\":\"\"\x7d"⟩], false) := by decide

example :
    normalize (.obj [("messages", .arr
      [.obj [("role", .str "user"), ("content", .str "hi")],
       .obj [("role", .str "system"), ("text", .str "note")]])]) =
    ([⟨"user", "hi"⟩, ⟨"system", "note"⟩], false) := by decide

/-- A rendered chat message: `id` minted from `Date.now()` and a random
base-36 suffix, `role`, `content` (App.js lines 31-36). -/
structure Message where
  id : String
  role : String
  content : String
deriving DecidableEq, Repr

/-- The component state: the `input`, `messages`, `loading` and `error`
`useState` hooks of `ReactChatbot`. -/
structure AppState where
  input : String
  messages : List Message
  loading : Bool
  error : Option String
deriving DecidableEq, Repr

/-- One HTTP request as issued by `fetch` (App.js lines 49-53). -/
structure Request where
  url : String
  method : String
  contentType : String
  body : String
deriving DecidableEq, Repr

/-- The environment's resolution of the dispatched `fetch`:
a non-2xx response whose body text was read (`resp.status`, text),
a 2xx response whose body decoded to a JSON value, or a transport/decode
fault — the caught value's optional `.message` string
(`err?.message ?? "Unknown error"`). -/
inductive FetchResult where
  | httpError : Nat → String → FetchResult
  | success : Json → FetchResult
  | fault : Option String → FetchResult

/-- Message id from one `Date.now()` / `Math.random().toString(36).slice(2,8)`
draw: the template string on App.js line 34. -/
def mkMessageId (tr : Nat × String) : String :=
  "m-" ++ toString tr.1 ++ "-" ++ tr.2

/-- Id of the seeded welcome message (App.js line 17): no random suffix. -/
def mkWelcomeId (t : Nat) : String :=
  "m-" ++ toString t

/-- Fallback assistant text of App.js line 78 (the source file holds the
literal bytes U+00E2 U+20AC U+201D between the words). -/
def fallbackText : String :=
  "Sorry â€” I couldn\x27t get a reply from the server."

/-- Engine-supplied description of the `TypeError` raised by property access
on `null` inside the response-handling block; the exact wording is
implementation-defined and no claim depends on it. -/
def typeErrorText : String :=
  "Cannot read properties of null"

/-- Whitespace class stripped by `String.prototype.trim`: ASCII whitespace,
vertical tab, form feed, no-break space and the BOM (further exotic Unicode
space separators are omitted; no claim involves them). -/
def isJsWhitespace (c : Char) : Bool :=
  c = ' ' || c = '\t' || c = '\n' || c = '\r' || c = '\x0b' || c = '\x0c' ||
    c.toNat = 160 || c.toNat = 65279

/-- JavaScript `input.trim()`: strip leading and trailing whitespace. -/
def jsTrim (s : String) : String :=
  String.mk (((s.data.dropWhile isJsWhitespace).reverse.dropWhile
    isJsWhitespace).reverse)

/-- `addMessage(role, content)` (App.js lines 31-36): appends one message whose
id is minted from the `k`-th draw of the environment stream `gen`; returns the
advanced draw counter and the new list. -/
def addMessage (gen : Nat → Nat × String) (k : Nat) (msgs : List Message)
    (role content : String) : Nat × List Message :=
  (k + 1, msgs ++ [⟨mkMessageId (gen k), role, content⟩])

/-- The `forEach` of the success path calling `addMessage` once per normalized
chat, left to right. -/
def appendChats (gen : Nat → Nat × String) :
    Nat → List Message → List Chat → Nat × List Message
  | k, msgs, [] => (k, msgs)
  | k, msgs, c :: cs =>
    let p := addMessage gen k msgs c.role c.content
    appendChats gen p.1 p.2 cs

/-- The component state right after the mount effect seeded the welcome
message (App.js lines 14-22), with `t` the `Date.now()` draw of that effect. -/
def initState (t : Nat) : AppState :=
  { input := ""
    messages := [⟨mkWelcomeId t, "assistant", "Write a topic for research."⟩]
    loading := false
    error := none }

/-- One complete run of `sendMessage` (App.js lines 38-82), from invocation to
the settling of its `fetch`, as a big-step state transformer.  `gen`/`k` is the
id-draw stream and its cursor; `res` is the environment's resolution of the
network call.  Returns the new cursor, the state after the `finally`, and the
list of HTTP requests issued during the run. -/
def sendMessage (apiURL : String) (gen : Nat → Nat × String) (k : Nat)
    (st : AppState) (res : FetchResult) : Nat × AppState × List Request :=
  let trimmed := jsTrim st.input
  if trimmed = "" then (k, st, [])
  else
    let p1 := addMessage gen k st.messages "user" trimmed
    let req : Request :=
      ⟨apiURL ++ "/research", "POST", "application/json",
       jsonStringify (.obj [("query", .str trimmed)])⟩
    match res with
    | .httpError status body =>
      let p2 := addMessage gen p1.1 p1.2 "assistant" fallbackText
      (p2.1,
       { input := "", messages := p2.2, loading := false,
         error := some ("Backend error: " ++ toString status ++ " " ++ body) },
       [req])
    | .fault desc =>
      let p2 := addMessage gen p1.1 p1.2 "assistant" fallbackText
      (p2.1,
       { input := "", messages := p2.2, loading := false,
         error := some (Option.getD desc "Unknown error") },
       [req])
    | .success data =>
      let n := normalize data
      let p2 := appendChats gen p1.1 p1.2 n.1
      if n.2 then
        let p3 := addMessage gen p2.1 p2.2 "assistant" fallbackText
        (p3.1,
         { input := "", messages := p3.2, loading := false,
           error := some typeErrorText },
         [req])
      else
        (p2.1,
         { input := "", messages := p2.2, loading := false, error := none },
         [req])

/-- States reachable in one session: the mounted component, user edits of the
input box (`setInput` on change — the textarea is never disabled), and
completed `sendMessage` runs.  The pair carries the id-draw cursor alongside
the component state. -/
inductive Reachable (apiURL : String) (gen : Nat → Nat × String) (t : Nat) :
    Nat × AppState → Prop where
  | init : Reachable apiURL gen t (0, initState t)
  | type (k : Nat) (st : AppState) (s : String) :
      Reachable apiURL gen t (k, st) →
      Reachable apiURL gen t (k, { st with input := s })
  | send (k : Nat) (st : AppState) (res : FetchResult)
      (out : Nat × AppState × List Request) :
      Reachable apiURL gen t (k, st) →
      sendMessage apiURL gen k st res = out →
      Reachable apiURL gen t (out.1, out.2.1)

/-- The messages produced by attaching ids to a run of chats, starting at draw
cursor `k`: the shape of every block of appends inside `sendMessage`. -/
def chatsWithIds (gen : Nat → Nat × String) : Nat → List Chat → List Message
  | _, [] => []
  | k, c :: cs => ⟨mkMessageId (gen k), c.role, c.content⟩ :: chatsWithIds gen (k + 1) cs

theorem appendChats_eq (gen : Nat → Nat × String) (cs : List Chat) :
    ∀ (k : Nat) (msgs : List Message),
      appendChats gen k msgs cs = (k + cs.length, msgs ++ chatsWithIds gen k cs) := by
  induction cs with
  | nil => intro k msgs; simp [appendChats, chatsWithIds]
  | cons c cs ih =>
    intro k msgs
    simp only [appendChats, addMessage, chatsWithIds, ih, List.length_cons,
      Prod.mk.injEq]
    refine ⟨by omega, by simp⟩

theorem chatsWithIds_append (gen : Nat → Nat × String) (a b : List Chat) :
    ∀ k : Nat, chatsWithIds gen k (a ++ b) =
      chatsWithIds gen k a ++ chatsWithIds gen (k + a.length) b := by
  induction a with
  | nil => intro k; simp [chatsWithIds]
  | cons c cs ih =>
    intro k
    simp only [List.cons_append, chatsWithIds, List.length_cons, List.append_eq]
    rw [show k + (cs.length + 1) = k + 1 + cs.length by omega, ih (k + 1)]

theorem take_append_cons {α : Type} (ms : List α) (x : α) (rest : List α) :
    (ms ++ x :: rest).take (ms.length + 1) = ms ++ [x] := by
  induction ms with
  | nil => simp
  | cons a as ih => simpa using ih

/-- The ordered (role, content) pairs a completed `sendMessage` run appends:
none when the trimmed input is empty, else the user echo followed by the
branch-dependent tail (fallback on failures, the normalized chats — plus the
fallback when the normalizer threw — on success). -/
def newChats (st : AppState) (res : FetchResult) : List Chat :=
  if jsTrim st.input = "" then []
  else
    ⟨"user", jsTrim st.input⟩ ::
      match res with
      | .httpError _ _ => [⟨"assistant", fallbackText⟩]
      | .fault _ => [⟨"assistant", fallbackText⟩]
      | .success data =>
        (normalize data).1 ++
          (if (normalize data).2 then [⟨"assistant", fallbackText⟩] else [])

theorem sendMessage_messages_eq (apiURL : String) (gen : Nat → Nat × String)
    (k : Nat) (st : AppState) (res : FetchResult) :
    (sendMessage apiURL gen k st res).1 = k + (newChats st res).length ∧
    (sendMessage apiURL gen k st res).2.1.messages =
      st.messages ++ chatsWithIds gen k (newChats st res) := by
  unfold sendMessage newChats
  by_cases h : jsTrim st.input = ""
  · simp [h, chatsWithIds]
  · cases res with
    | httpError status body =>
      refine ⟨?_, ?_⟩
      · simp [h, addMessage]
      · simp [h, addMessage, chatsWithIds]
    | fault d =>
      refine ⟨?_, ?_⟩
      · simp [h, addMessage]
      · simp [h, addMessage, chatsWithIds]
    | success data =>
      by_cases h2 : (normalize data).2
      · refine ⟨?_, ?_⟩
        · simp [h, h2, addMessage, appendChats_eq]; omega
        · simp [h, h2, addMessage, appendChats_eq, chatsWithIds,
            chatsWithIds_append, List.append_assoc]
      · refine ⟨?_, ?_⟩
        · simp [h, h2, addMessage, appendChats_eq]; omega
        · simp [h, h2, addMessage, appendChats_eq, chatsWithIds,
            chatsWithIds_append, List.append_assoc]

/-- A concrete id-draw stream: every draw yields timestamp 0 and empty suffix. -/
def genW : Nat → Nat × String := fun _ => (0, "")

/-- A concrete id-draw stream: every draw yields timestamp 0 and suffix x —
the same pair twice models two `addMessage` calls landing in the same
millisecond with equal `Math.random` slices. -/
def genX : Nat → Nat × String := fun _ => (0, "x")

/-- A state whose input is whitespace only. -/
def wsState : AppState :=
  { input := "  \t ", messages := [], loading := false, error := none }

/-- A state whose input trims to hi. -/
def stHi : AppState :=
  { input := "hi", messages := [], loading := false, error := none }

/-- C8: when the trimmed input is empty, `sendMessage` is a no-op — the
messages, loading flag, error and input are all left unchanged and no HTTP
request is issued (App.js lines 39-40: the early return precedes every
effect). -/
theorem submit_whitespace_noop (apiURL : String) (gen : Nat → Nat × String)
    (k : Nat) (st : AppState) (res : FetchResult) (h : jsTrim st.input = "") :
    sendMessage apiURL gen k st res = (k, st, []) := by
  unfold sendMessage
  simp [h]

theorem submit_whitespace_noop_witness :
    sendMessage "http://localhost:8000" genW 0 wsState (.fault none) =
      (0, wsState, []) :=
  submit_whitespace_noop "http://localhost:8000" genW 0 wsState (.fault none)
    (by decide)

/-- C7: for every input whose trimmed text is non-empty, and whatever the
outcome of the network call, `sendMessage` issues exactly one HTTP POST to
`apiURL`/research with a JSON content type and the body
`JSON.stringify(query: trimmed)`, and the first message it appends —
immediately before the dispatch — is a single user message carrying the
trimmed text. -/
theorem submit_single_dispatch (apiURL : String) (gen : Nat → Nat × String)
    (k : Nat) (st : AppState) (res : FetchResult) (h : jsTrim st.input ≠ "") :
    (sendMessage apiURL gen k st res).2.2 =
      [⟨apiURL ++ "/research", "POST", "application/json",
        jsonStringify (.obj [("query", .str (jsTrim st.input))])⟩] ∧
    ((sendMessage apiURL gen k st res).2.1.messages).take (st.messages.length + 1) =
      st.messages ++ [⟨mkMessageId (gen k), "user", jsTrim st.input⟩] := by
  constructor
  · unfold sendMessage
    cases res with
    | httpError status body => simp [h, addMessage]
    | fault d => simp [h, addMessage]
    | success data =>
      by_cases h2 : (normalize data).2 <;>
        simp [h, h2, addMessage, appendChats_eq]
  · have hm := (sendMessage_messages_eq apiURL gen k st res).2
    rw [hm]
    unfold newChats
    rw [if_neg h]
    simp only [chatsWithIds]
    exact take_append_cons st.messages _ _

theorem submit_single_dispatch_witness :
    (sendMessage "http://localhost:8000" genW 0 stHi (.fault none)).2.2 =
      [⟨"http://localhost:8000" ++ "/research", "POST", "application/json",
        jsonStringify (.obj [("query", .str (jsTrim stHi.input))])⟩] :=
  (submit_single_dispatch "http://localhost:8000" genW 0 stHi (.fault none)
    (by decide)).1

/-- A state captured while a request is in flight: `loading` is true and the
user has typed a fresh query (the textarea is never disabled and the Enter
key handler calls `sendMessage` unconditionally). -/
def pendingState : AppState :=
  { input := "hi"
    messages := [⟨mkWelcomeId 0, "assistant", "Write a topic for research."⟩]
    loading := true
    error := none }

/-- C2 (code bug): `sendMessage` contains no pending/loading guard — its only
precondition check is the emptiness of the trimmed input (App.js line 40).
Called on a state with `loading = true` (reachable through the Enter-key
handler, which invokes it regardless of `loading`), it still appends the user
message and issues a second HTTP request. -/
theorem pending_guard_missing :
    pendingState.loading = true ∧
    (sendMessage "http://localhost:8000" genX 0 pendingState (.fault none)).2.2.length = 1 ∧
    (sendMessage "http://localhost:8000" genX 0 pendingState (.fault none)).2.1.messages.length =
      pendingState.messages.length + 2 := by
  decide

/-- The entries over which the `forEach` of the messages branch runs, when
that branch is the one `normalize` takes: `data` non-null, the `reply`
condition false, and `data.messages` an array. -/
def messagesEntries (data : Json) : Option (List Json) :=
  match data with
  | .null => none
  | _ =>
    let reply := getF data "reply"
    if truthy reply && isString reply then none
    else
      match getF data "messages" with
      | .arr es => some es
      | _ => none

theorem normalize_messages_branch (data : Json) (es : List Json)
    (h : messagesEntries data = some es) :
    normalize data = normalizeEntries es := by
  cases data with
  | null => simp [messagesEntries] at h
  | bool b =>
    unfold messagesEntries at h
    unfold normalize
    split at h
    · exact absurd h (by simp)
    · split at h
      · rename_i harr
        simp_all [harr]
      · exact absurd h (by simp)
  | num n =>
    unfold messagesEntries at h
    unfold normalize
    split at h
    · exact absurd h (by simp)
    · split at h
      · rename_i harr
        simp_all [harr]
      · exact absurd h (by simp)
  | str s =>
    unfold messagesEntries at h
    unfold normalize
    split at h
    · exact absurd h (by simp)
    · split at h
      · rename_i harr
        simp_all [harr]
      · exact absurd h (by simp)
  | arr l =>
    unfold messagesEntries at h
    unfold normalize
    split at h
    · exact absurd h (by simp)
    · split at h
      · rename_i harr
        simp_all [harr]
      · exact absurd h (by simp)
  | obj kvs =>
    unfold messagesEntries at h
    unfold normalize
    split at h
    · exact absurd h (by simp)
    · split at h
      · rename_i harr
        simp_all [harr]
      · exact absurd h (by simp)

/-- Per-entry message derivation, modelled from the spec wording (rule 2 of
the Normalizer contract): role is `user` or `system` when the entry's `role`
field equals those strings, else `assistant`; content is the entry's
`content` field if present, else its `text` field if present, else the empty
string, coerced to text. -/
def specEntryChat (e : Json) : Chat :=
  { role :=
      if jsEqStr (getF e "role") "user" then "user"
      else if jsEqStr (getF e "role") "system" then "system"
      else "assistant"
    content :=
      jsToString
        (if !isNull (getF e "content") then getF e "content"
         else if !isNull (getF e "text") then getF e "text"
         else .str "") }

theorem normalizeEntries_no_null (es : List Json)
    (h : es.all (fun e => !isNull e) = true) :
    normalizeEntries es = (es.map specEntryChat, false) := by
  induction es with
  | nil => rfl
  | cons e rest ih =>
    rw [List.all_cons] at h
    have h1 : (!isNull e) = true := (Bool.and_eq_true _ _ ▸ h).1
    have h2 := (Bool.and_eq_true _ _ ▸ h).2
    have he : entryToChat e = .ok (specEntryChat e) := by
      cases e <;> simp_all [entryToChat, specEntryChat, isNull]
    simp [normalizeEntries, he, ih h2]

/-- C3 counterexample: on the payload whose `reply` field is the empty
string, the guard `data.reply && typeof data.reply === "string"` is falsy
(empty strings are falsy), so the normalizer falls through to the catch-all
and emits the JSON-serialized object — not an assistant message with empty
content, as the claim requires. -/
theorem reply_empty_string_cex :
    normalize (.obj [("reply", .str "")]) =
      ([⟨"assistant", "\x7b\"reply\":\"\"\x7d"⟩], false) ∧
    (normalize (.obj [("reply", .str "")])).1 ≠ [⟨"assistant", ""⟩] := by
  decide

/-- C3 amended: for every payload whose `reply` field is a non-empty string,
the normalizer emits exactly one assistant message carrying that string and
does not throw. -/
theorem reply_branch_amended (data : Json) (s : String)
    (h1 : getF data "reply" = .str s) (h2 : s ≠ "") :
    normalize data = ([⟨"assistant", s⟩], false) := by
  have hcond : (truthy (getF data "reply") && isString (getF data "reply")) = true := by
    rw [h1]
    simp [truthy, isString, h2]
  cases data with
  | null => simp [getF] at h1
  | bool b => unfold normalize; rw [if_pos hcond, h1]; rfl
  | num n => unfold normalize; rw [if_pos hcond, h1]; rfl
  | str t => unfold normalize; rw [if_pos hcond, h1]; rfl
  | arr l => unfold normalize; rw [if_pos hcond, h1]; rfl
  | obj kvs => unfold normalize; rw [if_pos hcond, h1]; rfl

/-- The decoded payload of the spec's Paris example. -/
def parisJson : Json := .obj [("reply", .str "Paris is the capital.")]

theorem reply_branch_amended_witness :
    normalize parisJson = ([⟨"assistant", "Paris is the capital."⟩], false) :=
  reply_branch_amended parisJson "Paris is the capital." rfl (by decide)

/-- C4 counterexample: a payload whose `messages` array contains a null entry.
The claim demands one emitted message per entry (here: one); the code instead
throws a `TypeError` at `msg.role` and emits nothing. -/
theorem messages_null_entry_cex :
    normalize (.obj [("messages", .arr [Json.null])]) = ([], true) ∧
    (normalize (.obj [("messages", .arr [Json.null])])).1.length ≠
      [Json.null].length := by
  decide

/-- C4 amended: for every payload on which the messages branch runs and whose
entries are all non-null, the normalizer emits exactly one message per entry
in array order, with the role clamped to user/system/assistant as the claim
states and the content taken from `content`, else `text`, else the empty
string, coerced to text (`specEntryChat` transcribes the claim's derivation
rule). -/
theorem messages_branch_amended (data : Json) (es : List Json)
    (h1 : messagesEntries data = some es)
    (h2 : es.all (fun e => !isNull e) = true) :
    normalize data = (es.map specEntryChat, false) := by
  rw [normalize_messages_branch data es h1]
  exact normalizeEntries_no_null es h2

/-- A payload exercising the messages branch with non-null entries of mixed
shape. -/
def mixedMessagesJson : Json :=
  .obj [("messages", .arr
    [.obj [("role", .str "user"), ("content", .str "hi")], .num 5])]

theorem messages_branch_amended_witness :
    normalize mixedMessagesJson =
      ([.obj [("role", .str "user"), ("content", .str "hi")], .num 5].map
        specEntryChat, false) :=
  messages_branch_amended mixedMessagesJson
    [.obj [("role", .str "user"), ("content", .str "hi")], .num 5]
    rfl (by decide)

/-- The decoded payload of the spec's two-entry `messages` example. -/
def twoEntryJson : Json :=
  .obj [("messages", .arr
    [.obj [("role", .str "user"), ("content", .str "hi")],
     .obj [("role", .str "system"), ("text", .str "note")]])]

/-- C5 counterexample: the second entry's role is the string `system`, which
the code recognizes (`msg.role === "system" ? "system" : ...`) and keeps — it
does not default to `assistant` as the claim asserts, so the claimed output
list is not the one produced. -/
theorem system_role_example_cex :
    normalize twoEntryJson = ([⟨"user", "hi"⟩, ⟨"system", "note"⟩], false) ∧
    (normalize twoEntryJson).1 ≠ [⟨"user", "hi"⟩, ⟨"assistant", "note"⟩] := by
  decide

/-- C5 amended: on the example payload the normalizer yields the user message
`hi` followed by a `system` message whose content `note` comes from the
`text` fallback field (the role `system` is recognized, not defaulted). -/
theorem system_role_example_amended :
    normalize twoEntryJson = ([⟨"user", "hi"⟩, ⟨"system", "note"⟩], false) := by
  decide

/-- C1 counterexample: the normalizer is not total and not always non-empty.
On `null` the very first property access `data.reply` throws a `TypeError`
(flag `true`) and no message is produced; on a payload whose `messages` field
is the empty array the branch runs zero iterations and returns an empty list. -/
theorem normalize_not_total_cex :
    normalize Json.null = ([], true) ∧
    (normalize Json.null).1.length = 0 ∧
    normalize (.obj [("messages", .arr [])]) = ([], false) ∧
    (normalize (.obj [("messages", .arr [])])).1.length = 0 := by
  decide

/-- Guard under which the messages branch cannot fault or come back empty:
whenever `normalize` would run the `forEach` (rule 2), its entries list is
non-empty and free of null entries. -/
def entriesOk (data : Json) : Bool :=
  match messagesEntries data with
  | none => true
  | some es => !es.isEmpty && es.all (fun e => !isNull e)

theorem normalize_not_messages (data : Json) (h1 : data ≠ Json.null)
    (h2 : messagesEntries data = none) :
    ∃ c, normalize data = ([c], false) := by
  cases data with
  | null => exact absurd rfl h1
  | bool b => exact ⟨⟨"assistant", jsonStringify (.bool b)⟩, rfl⟩
  | num n => exact ⟨⟨"assistant", jsonStringify (.num n)⟩, rfl⟩
  | str s => exact ⟨⟨"assistant", s⟩, rfl⟩
  | arr l => exact ⟨⟨"assistant", jsonStringify (.arr l)⟩, rfl⟩
  | obj kvs =>
    simp only [messagesEntries] at h2
    simp only [normalize]
    split at h2
    · rename_i hcond
      rw [if_pos hcond]
      exact ⟨_, rfl⟩
    · rename_i hcond
      rw [if_neg hcond]
      cases hgm : getF (Json.obj kvs) "messages" with
      | arr es => rw [hgm] at h2; simp at h2
      | null => exact ⟨_, rfl⟩
      | bool b => exact ⟨_, rfl⟩
      | num n => exact ⟨_, rfl⟩
      | str s => exact ⟨_, rfl⟩
      | obj kvs2 => exact ⟨_, rfl⟩

/-- C1 amended: the normalizer neither throws nor returns an empty list on
any input other than `null`, provided that when the messages branch runs its
entries are non-empty and non-null (`entriesOk`); outside that branch every
rule emits exactly one message. -/
theorem normalize_total_amended (data : Json) (h1 : data ≠ Json.null)
    (h2 : entriesOk data = true) :
    (normalize data).2 = false ∧ (normalize data).1.isEmpty = false := by
  unfold entriesOk at h2
  cases hm : messagesEntries data with
  | none =>
    obtain ⟨c, hc⟩ := normalize_not_messages data h1 hm
    simp [hc]
  | some es =>
    rw [hm] at h2
    have hne : es.isEmpty = false := by
      cases hb : es.isEmpty <;> simp_all
    have hall : es.all (fun e => !isNull e) = true := by
      cases hb : es.all (fun e => !isNull e) <;> simp_all
    rw [normalize_messages_branch data es hm, normalizeEntries_no_null es hall]
    cases es with
    | nil => simp [List.isEmpty] at hne
    | cons e rest => simp

/-- An unrecognized-shape payload for the amended-totality witness. -/
def fooJson : Json := .obj [("foo", .num 1)]

theorem normalize_total_amended_witness :
    (normalize fooJson).2 = false ∧ (normalize fooJson).1.isEmpty = false :=
  normalize_total_amended fooJson (fun h => Json.noConfusion h) (by decide)

/-- C6 counterexample: a transport fault whose caught value carries an empty
`message` string.  `err?.message ?? "Unknown error"` keeps the empty string
(it is not nullish), so `lastError` is set to the empty text — contradicting
the claim that every failure sets a non-empty `lastError`. -/
theorem fault_empty_description_cex :
    (sendMessage "http://localhost:8000" genX 0 stHi
      (.fault (some ""))).2.1.error = some "" ∧
    ("" : String).length = 0 := by
  decide

/-- C6 amended: every dispatched `sendMessage` run exits with `loading =
false` (the `finally`).  On a non-2xx response, `lastError` is the non-empty
text combining the status code and the body text and exactly one fallback
assistant message follows the echoed user message; on a transport fault,
`lastError` is the fault's description (or `Unknown error` when absent) —
empty exactly when the description itself is the empty string — with the same
single fallback append; on a 2xx response whose handling throws, `lastError`
is the `TypeError` description and the single fallback append follows the
normalized prefix; on a clean success, `lastError` is cleared. -/
theorem failure_postcondition_amended (apiURL : String)
    (gen : Nat → Nat × String) (k : Nat) (st : AppState) (res : FetchResult)
    (h : jsTrim st.input ≠ "") :
    (sendMessage apiURL gen k st res).2.1.loading = false ∧
    (match res with
     | .httpError status body =>
        (sendMessage apiURL gen k st res).2.1.error =
          some ("Backend error: " ++ toString status ++ " " ++ body) ∧
        0 < ("Backend error: " ++ toString status ++ " " ++ body).length ∧
        (sendMessage apiURL gen k st res).2.1.messages =
          st.messages ++
            [⟨mkMessageId (gen k), "user", jsTrim st.input⟩,
             ⟨mkMessageId (gen (k + 1)), "assistant", fallbackText⟩]
     | .fault d =>
        (sendMessage apiURL gen k st res).2.1.error =
          some (Option.getD d "Unknown error") ∧
        (sendMessage apiURL gen k st res).2.1.messages =
          st.messages ++
            [⟨mkMessageId (gen k), "user", jsTrim st.input⟩,
             ⟨mkMessageId (gen (k + 1)), "assistant", fallbackText⟩]
     | .success data =>
        ((normalize data).2 = true →
          (sendMessage apiURL gen k st res).2.1.error = some typeErrorText ∧
          (sendMessage apiURL gen k st res).2.1.messages =
            st.messages ++
              [⟨mkMessageId (gen k), "user", jsTrim st.input⟩] ++
              chatsWithIds gen (k + 1) (normalize data).1 ++
              [⟨mkMessageId (gen (k + 1 + (normalize data).1.length)),
                "assistant", fallbackText⟩]) ∧
        ((normalize data).2 = false →
          (sendMessage apiURL gen k st res).2.1.error = none)) := by
  constructor
  · unfold sendMessage
    cases res with
    | httpError status body => simp [h, addMessage]
    | fault d => simp [h, addMessage]
    | success data =>
      by_cases h2 : (normalize data).2 <;> simp [h, h2, addMessage, appendChats_eq]
  · cases res with
    | httpError status body =>
      refine ⟨?_, ?_, ?_⟩
      · unfold sendMessage; simp [h, addMessage]
      · have h15 : ("Backend error: ").length = 15 := by decide
        simp [String.length_append, h15]
      · unfold sendMessage; simp [h, addMessage]
    | fault d =>
      refine ⟨?_, ?_⟩
      · unfold sendMessage; simp [h, addMessage]
      · unfold sendMessage; simp [h, addMessage]
    | success data =>
      refine ⟨fun h2 => ⟨?_, ?_⟩, fun h2 => ?_⟩
      · unfold sendMessage; simp [h, h2, addMessage, appendChats_eq]
      · unfold sendMessage
        simp [h, h2, addMessage, appendChats_eq, List.append_assoc]
      · unfold sendMessage; simp [h, h2, addMessage, appendChats_eq]

theorem failure_postcondition_amended_witness :
    (sendMessage "http://localhost:8000" genX 0 stHi
      (.httpError 500 "boom")).2.1.loading = false :=
  (failure_postcondition_amended "http://localhost:8000" genX 0 stHi
    (.httpError 500 "boom") (by decide)).1

/-- The three roles the data model admits. -/
def roleOk (r : String) : Bool :=
  r == "user" || r == "assistant" || r == "system"

def rolesOk (ms : List Message) : Bool :=
  ms.all fun m => roleOk m.role

theorem entryToChat_role (e : Json) (c : Chat) (h : entryToChat e = .ok c) :
    roleOk c.role = true := by
  cases e with
  | null => simp [entryToChat] at h
  | bool b =>
    simp only [entryToChat] at h
    cases h
    by_cases h1 : jsEqStr (getF (Json.bool b) "role") "user" <;>
      by_cases h2 : jsEqStr (getF (Json.bool b) "role") "system" <;>
        simp [h1, h2, roleOk]
  | num n =>
    simp only [entryToChat] at h
    cases h
    by_cases h1 : jsEqStr (getF (Json.num n) "role") "user" <;>
      by_cases h2 : jsEqStr (getF (Json.num n) "role") "system" <;>
        simp [h1, h2, roleOk]
  | str s =>
    simp only [entryToChat] at h
    cases h
    by_cases h1 : jsEqStr (getF (Json.str s) "role") "user" <;>
      by_cases h2 : jsEqStr (getF (Json.str s) "role") "system" <;>
        simp [h1, h2, roleOk]
  | arr l =>
    simp only [entryToChat] at h
    cases h
    by_cases h1 : jsEqStr (getF (Json.arr l) "role") "user" <;>
      by_cases h2 : jsEqStr (getF (Json.arr l) "role") "system" <;>
        simp [h1, h2, roleOk]
  | obj kvs =>
    simp only [entryToChat] at h
    cases h
    by_cases h1 : jsEqStr (getF (Json.obj kvs) "role") "user" <;>
      by_cases h2 : jsEqStr (getF (Json.obj kvs) "role") "system" <;>
        simp [h1, h2, roleOk]

theorem normalizeEntries_roles (es : List Json) :
    ∀ c ∈ (normalizeEntries es).1, roleOk c.role = true := by
  induction es with
  | nil => intro c hc; simp [normalizeEntries] at hc
  | cons e rest ih =>
    intro c hc
    simp only [normalizeEntries] at hc
    cases he : entryToChat e with
    | error u => rw [he] at hc; simp at hc
    | ok c0 =>
      rw [he] at hc
      simp only [List.mem_cons] at hc
      cases hc with
      | inl h0 => exact h0 ▸ entryToChat_role e c0 he
      | inr h0 => exact ih c h0

theorem normalize_roles (data : Json) :
    ∀ c ∈ (normalize data).1, roleOk c.role = true := by
  intro c hc
  cases data with
  | null => simp [normalize] at hc
  | bool b => simp [normalize, getF, truthy, isString] at hc; simp [hc, roleOk]
  | num n => simp [normalize, getF, truthy, isString] at hc; simp [hc, roleOk]
  | arr l => simp [normalize, getF, truthy, isString] at hc; simp [hc, roleOk]
  | str s => simp [normalize, getF, truthy, isString] at hc; simp [hc, roleOk]
  | obj kvs =>
    by_cases h1 :
        (truthy (getF (Json.obj kvs) "reply") && isString (getF (Json.obj kvs) "reply")) = true
    · simp only [normalize, h1, if_pos] at hc
      simp at hc; simp [hc, roleOk]
    · simp only [normalize, h1, if_neg] at hc
      cases hgm : getF (Json.obj kvs) "messages" with
      | arr es =>
        rw [hgm] at hc
        exact normalizeEntries_roles es c hc
      | null => rw [hgm] at hc; simp [isString] at hc; simp [hc, roleOk]
      | bool b2 => rw [hgm] at hc; simp [isString] at hc; simp [hc, roleOk]
      | num n2 => rw [hgm] at hc; simp [isString] at hc; simp [hc, roleOk]
      | str s2 => rw [hgm] at hc; simp [isString] at hc; simp [hc, roleOk]
      | obj kvs2 => rw [hgm] at hc; simp [isString] at hc; simp [hc, roleOk]

theorem chatsWithIds_roles (gen : Nat → Nat × String) (cs : List Chat)
    (h : ∀ c ∈ cs, roleOk c.role = true) :
    ∀ k : Nat, rolesOk (chatsWithIds gen k cs) = true := by
  induction cs with
  | nil => intro k; rfl
  | cons c rest ih =>
    intro k
    simp only [chatsWithIds, rolesOk, List.all_cons]
    refine Bool.and_eq_true _ _ |>.mpr ⟨h c (by simp), ?_⟩
    exact ih (fun c0 hc0 => h c0 (by simp [hc0])) (k + 1)

theorem newChats_roles (st : AppState) (res : FetchResult) :
    ∀ c ∈ newChats st res, roleOk c.role = true := by
  intro c hc
  unfold newChats at hc
  by_cases h : jsTrim st.input = ""
  · simp [h] at hc
  · rw [if_neg h] at hc
    simp only [List.mem_cons] at hc
    cases hc with
    | inl h0 => simp [h0, roleOk]
    | inr h0 =>
      cases res with
      | httpError status body => simp at h0; simp [h0, roleOk]
      | fault d => simp at h0; simp [h0, roleOk]
      | success data =>
        simp only [List.mem_append] at h0
        cases h0 with
        | inl h1 => exact normalize_roles data c h1
        | inr h1 =>
          by_cases h2 : (normalize data).2 <;> simp [h2] at h1
          simp [h1, roleOk]

/-- C10: in every reachable state of the session, every message in the
conversation carries one of the roles user, assistant or system — the
normalizer clamps arbitrary payload roles and every other `addMessage` call
site passes a fixed literal. -/
theorem roles_clamped_invariant (apiURL : String) (gen : Nat → Nat × String)
    (t : Nat) (p : Nat × AppState) (h : Reachable apiURL gen t p) :
    rolesOk p.2.messages = true := by
  induction h with
  | init => simp [initState, rolesOk, roleOk]
  | type k st s hr ih => exact ih
  | send k st res out hr he ih =>
    have hm := (sendMessage_messages_eq apiURL gen k st res).2
    rw [he] at hm
    simp only [hm, rolesOk, List.all_append]
    refine Bool.and_eq_true _ _ |>.mpr ⟨ih, ?_⟩
    exact chatsWithIds_roles gen (newChats st res) (newChats_roles st res) k

theorem roles_clamped_invariant_witness :
    rolesOk (initState 0).messages = true :=
  roles_clamped_invariant "http://localhost:8000" genW 0 (0, initState 0)
    Reachable.init

/-- Id bookkeeping invariant: message ids are pairwise distinct, and every id
is either the seeded welcome id or was minted from a draw strictly below the
current cursor. -/
def idProvenance (gen : Nat → Nat × String) (t k : Nat)
    (ms : List Message) : Prop :=
  (ms.map Message.id).Nodup ∧
  ∀ m ∈ ms, m.id = mkWelcomeId t ∨ ∃ i, i < k ∧ m.id = mkMessageId (gen i)

theorem idProvenance_chats (gen : Nat → Nat × String) (t : Nat)
    (cs : List Chat) :
    ∀ (k : Nat) (ms : List Message),
      idProvenance gen t k ms →
      (∀ i j, i < k + cs.length → j < k + cs.length →
        mkMessageId (gen i) = mkMessageId (gen j) → i = j) →
      (∀ i, i < k + cs.length → mkMessageId (gen i) ≠ mkWelcomeId t) →
      idProvenance gen t (k + cs.length) (ms ++ chatsWithIds gen k cs) := by
  induction cs with
  | nil => intro k ms h _ _; simpa [chatsWithIds] using h
  | cons c rest ih =>
    intro k ms h h1 h2
    have hlen : k + (c :: rest).length = (k + 1) + rest.length := by simp; omega
    obtain ⟨hnd, hpv⟩ := h
    have hfresh : mkMessageId (gen k) ∉ ms.map Message.id := by
      intro hmem
      obtain ⟨m, hm, hmid⟩ := List.mem_map.mp hmem
      rcases hpv m hm with hwel | ⟨i, hi, hid⟩
      · exact h2 k (by simp) (hmid ▸ hwel)
      · have : i = k := h1 i k (by simp; omega) (by simp) (by rw [← hid, hmid])
        omega
    have hsnoc : idProvenance gen t (k + 1)
        (ms ++ [⟨mkMessageId (gen k), c.role, c.content⟩]) := by
      constructor
      · rw [List.map_append]
        refine List.Nodup.append hnd (by simp) ?_
        intro a ha hb
        simp at hb
        rw [hb] at ha
        exact hfresh ha
      · intro m hm
        rcases List.mem_append.mp hm with hm0 | hm0
        · rcases hpv m hm0 with hwel | ⟨i, hi, hid⟩
          · exact Or.inl hwel
          · exact Or.inr ⟨i, by omega, hid⟩
        · simp at hm0
          exact Or.inr ⟨k, by omega, by rw [hm0]⟩
    have hrec := ih (k + 1) (ms ++ [⟨mkMessageId (gen k), c.role, c.content⟩])
      hsnoc
      (fun i j hi hj => h1 i j (by simp; omega) (by simp; omega))
      (fun i hi => h2 i (by simp; omega))
    rw [hlen]
    simpa [chatsWithIds, List.append_assoc] using hrec

theorem reachable_idProvenance (apiURL : String) (gen : Nat → Nat × String)
    (t : Nat) (p : Nat × AppState) (h : Reachable apiURL gen t p) :
    (∀ i j, i < p.1 → j < p.1 →
      mkMessageId (gen i) = mkMessageId (gen j) → i = j) →
    (∀ i, i < p.1 → mkMessageId (gen i) ≠ mkWelcomeId t) →
    idProvenance gen t p.1 p.2.messages := by
  induction h with
  | init =>
    intro _ _
    refine ⟨by simp [initState], ?_⟩
    intro m hm
    simp [initState] at hm
    exact Or.inl (by rw [hm])
  | type k st s hr ih => intro h1 h2; exact ih h1 h2
  | send k st res out hr he ih =>
    intro h1 h2
    have hms := sendMessage_messages_eq apiURL gen k st res
    rw [he] at hms
    obtain ⟨hk, hmsg⟩ := hms
    have hle : k ≤ out.1 := by omega
    have hprov := ih
      (fun i j hi hj => h1 i j (by omega) (by omega))
      (fun i hi => h2 i (by omega))
    rw [hmsg, hk]
    refine idProvenance_chats gen t (newChats st res) k st.messages hprov ?_ ?_
    · intro i j hi hj
      exact h1 i j (by omega) (by omega)
    · intro i hi
      exact h2 i (by omega)

/-- C9 amended: provided the id draws are collision-free — distinct draws
mint distinct id strings and no draw reproduces the welcome id — every
reachable conversation has pairwise-distinct message ids; and the
conversation order is the insertion order: every `sendMessage` run leaves the
existing messages as an unchanged prefix and only appends. -/
theorem unique_ids_amended (apiURL : String) (gen : Nat → Nat × String)
    (t : Nat) (p : Nat × AppState) (h : Reachable apiURL gen t p)
    (hinj : ∀ i j, i < p.1 → j < p.1 →
      mkMessageId (gen i) = mkMessageId (gen j) → i = j)
    (hw : ∀ i, i < p.1 → mkMessageId (gen i) ≠ mkWelcomeId t) :
    (p.2.messages.map Message.id).Nodup ∧
    ∀ res : FetchResult,
      ((sendMessage apiURL gen p.1 p.2 res).2.1.messages).take
        p.2.messages.length = p.2.messages := by
  constructor
  · exact (reachable_idProvenance apiURL gen t p h hinj hw).1
  · intro res
    have hm := (sendMessage_messages_eq apiURL gen p.1 p.2 res).2
    rw [hm, List.take_left]

theorem unique_ids_amended_witness :
    ((initState 0).messages.map Message.id).Nodup :=
  (unique_ids_amended "http://localhost:8000" genW 0 (0, initState 0)
    Reachable.init
    (fun i _ hi _ _ => absurd hi (Nat.not_lt_zero i))
    (fun i hi => absurd hi (Nat.not_lt_zero i))).1

/-- The state reached by: mount, type hi, send resolving in a transport
fault, under an id-draw stream that repeats the pair (0, x) — the same
millisecond and the same random slice on both `addMessage` calls. -/
def dupState : AppState :=
  { input := ""
    messages :=
      [⟨"m-0", "assistant", "Write a topic for research."⟩,
       ⟨"m-0-x", "user", "hi"⟩,
       ⟨"m-0-x", "assistant", fallbackText⟩]
    loading := false
    error := some "Unknown error" }

/-- C9 counterexample: id uniqueness is not guaranteed by the code.  The id
template `Date.now()` + 6 random base-36 characters can repeat (same
millisecond, same random slice); under such a draw stream a reachable state
holds two distinct messages with the identical id `m-0-x`. -/
theorem duplicate_id_cex :
    Reachable "http://localhost:8000" genX 0 (2, dupState) ∧
    dupState.messages.map Message.id = ["m-0", "m-0-x", "m-0-x"] ∧
    ¬ (dupState.messages.map Message.id).Nodup := by
  refine ⟨?_, by decide, by decide⟩
  have h0 : Reachable "http://localhost:8000" genX 0 (0, initState 0) :=
    Reachable.init
  have h1 : Reachable "http://localhost:8000" genX 0
      (0, { initState 0 with input := "hi" }) :=
    Reachable.type 0 (initState 0) "hi" h0
  exact Reachable.send 0 { initState 0 with input := "hi" } (.fault none)
    (2, dupState,
      [⟨"http://localhost:8000/research", "POST", "application/json",
        "\x7b\"query\":\"hi\"\x7d"⟩])
    h1 (by decide)

end ChatApp
